import Mathlib

/-!
Verification of the Opening Range trading strategy core
(`services/trading/run_bot.py`, `services/trading/or_core.py`).

Shallow embedding conventions:
- A pandas row becomes a `Bar`; the timezone-aware minute timestamp is kept
  only as its wall-clock time-of-day in minutes (`tod`), because every
  comparison the embedded code performs on timestamps is a time-of-day
  comparison (`index.time == ...`, `index.time > ...`).
- Dataframes become `List Bar` in ascending time order (the feed sorts by
  `time_ny` before any slicing, so `iloc[0]` is `List.find?` and
  `index.max()` is the last element).
- Python floats become `ℚ`.  `Series.max()` / `Series.min()` on a possibly
  empty series become `listMax` / `listMin : List ℚ → Option ℚ`, with `none`
  playing the role of pandas' NaN; a comparison against a NaN cutoff is
  `false`, which the `Option` matches reproduce.
- Fallible code paths (the `IndexError` reachable in `execute_day`'s
  hard-exit lookup) return `Option`, with `none` for the raised exception.
-/

/-- One OHLC minute bar.  `tod` is the bar timestamp's wall-clock time of day
in minutes after midnight; `opn` is the `open` column (a Lean keyword, hence
the spelling); `complete` is the OANDA candle-completeness flag (historical
CSV rows have no such column and behave as complete). -/
structure Bar where
  tod : Nat
  opn : ℚ
  high : ℚ
  low : ℚ
  close : ℚ
  complete : Bool
deriving DecidableEq, Repr

/-- Maximum of a list of rationals, `none` on the empty list
(pandas `Series.max()` yielding NaN on an empty series). -/
def listMax : List ℚ → Option ℚ
  | [] => none
  | x :: xs =>
    match listMax xs with
    | none => some x
    | some m => some (max x m)

/-- Minimum of a list of rationals, `none` on the empty list
(pandas `Series.min()` yielding NaN on an empty series). -/
def listMin : List ℚ → Option ℚ
  | [] => none
  | x :: xs =>
    match listMin xs with
    | none => some x
    | some m => some (min x m)

/-- Strategy/session parameters: module-level configuration constants of
`run_bot.py` / `or_core.py` (`ENTRY_T`, `EXIT_T`, `TOP_PCT`, `BOT_PCT`,
`SL_PTS`, `TP_PTS`, `POINT_VAL`, `POSITION_SIZE`), with the two times kept
as minutes of the day. -/
structure Params where
  entryT : Nat
  exitT : Nat
  topPct : ℚ
  botPct : ℚ
  slPts : ℚ
  tpPts : ℚ
  pointVal : ℚ
  posSize : ℚ
deriving DecidableEq, Repr

/-- The configured defaults: entry 10:22, hard exit 12:00, 35% zones,
SL 25 / TP 75 points, 80 USD per point, size 1. -/
def defaultParams : Params :=
  { entryT := 10 * 60 + 22, exitT := 12 * 60, topPct := 35 / 100, botPct := 35 / 100
    slPts := 25, tpPts := 75, pointVal := 80, posSize := 1 }

/-- Trade direction. -/
inductive Side
  | long
  | short
deriving DecidableEq, Repr

/-- Result of `run_bot.compute_signal`: the `(sig, reason)` pair collapsed
into one value.  `trade side entry sl tp` is `sig = (side, entry, sl, tp)`
with reason `"long"`/`"short"`; the other constructors are the `sig = None`
reasons `"missing_entry"`, `"entry_incomplete"`, `"none"`. -/
inductive Outcome
  | trade (side : Side) (entry sl tp : ℚ)
  | missingEntry
  | entryIncomplete
  | noTrade
deriving DecidableEq, Repr

/-- Embedding of `run_bot.compute_signal(win_df, or_df)`:
opening-range aggregates over `or_df`, cutoffs, first bar of `win_df` at the
entry time, completeness gate, then the long-first zone comparison.  The
`| _, _ => .noTrade` arm is the NaN case (empty `or_df`): both cutoff
comparisons are false in the source, giving reason `"none"`. -/
def computeSignal (P : Params) (winDf orDf : List Bar) : Outcome :=
  let orHigh? := listMax (orDf.map (·.high))
  let orLow? := listMin (orDf.map (·.low))
  match winDf.find? (fun b => b.tod == P.entryT) with
  | none => .missingEntry
  | some b =>
    if !b.complete then .entryIncomplete
    else
      let entry := b.close
      match orHigh?, orLow? with
      | some orHigh, some orLow =>
        let orRng := orHigh - orLow
        let bottomCut := orLow + P.botPct * orRng
        let topCut := orHigh - P.topPct * orRng
        if topCut ≤ entry then .trade .long entry (entry - P.slPts) (entry + P.tpPts)
        else if entry ≤ bottomCut then .trade .short entry (entry + P.slPts) (entry - P.tpPts)
        else .noTrade
      | _, _ => .noTrade

/-- Exit classification used by both `simulate_exit` and `execute_day`:
`"sl"`, `"tp"`, `"time"`, plus `execute_day`'s `"no_trade"`. -/
inductive ExitReason
  | sl
  | tp
  | time
  | noTrade
deriving DecidableEq, Repr

/-- Per-side target-touch test: long `hi >= tp`, short `lo <= tp`
(`touched_tp` in the source). -/
def touchesTarget (side : Side) (tp : ℚ) (b : Bar) : Bool :=
  match side with
  | .long => tp ≤ b.high
  | .short => b.low ≤ tp

/-- Per-side stop-touch test: long `lo <= sl`, short `hi >= sl`
(`touched_sl` in the source). -/
def touchesStop (side : Side) (sl : ℚ) (b : Bar) : Bool :=
  match side with
  | .long => b.low ≤ sl
  | .short => sl ≤ b.high

/-- One bar of the exit walk: the three-branch body shared verbatim by
`run_bot.simulate_exit` and `or_core.execute_day` (both-touched → stop,
stop-only → stop, target-only → target, neither → keep walking). -/
def barExit (side : Side) (sl tp : ℚ) (b : Bar) : Option (ℚ × ExitReason) :=
  let tTp := touchesTarget side tp b
  let tSl := touchesStop side sl b
  if tTp && tSl then some (sl, .sl)
  else if tSl then some (sl, .sl)
  else if tTp then some (tp, .tp)
  else none

/-- The `for ts, row in path.iterrows(): ... break` walk: first bar that
triggers `barExit`, returned with its position in the path. -/
def walkExit (side : Side) (sl tp : ℚ) : List Bar → Option (Nat × ℚ × ExitReason)
  | [] => none
  | b :: rest =>
    match barExit side sl tp b with
    | some (px, r) => some (0, px, r)
    | none => (walkExit side sl tp rest).map (fun x => (x.1 + 1, x.2.1, x.2.2))

/-- The bar path walked after entry:
`win_df.loc[win_df.index.time > ENTRY_T_T]`. -/
def pathOf (P : Params) (winDf : List Bar) : List Bar :=
  winDf.filter (fun b => P.entryT < b.tod)

/-- The walked sub-path `path.loc[:exit_ts]` over which MFE/MAE are taken:
up to and including the exit bar when the walk exits, the whole path
otherwise (which is also what the time-exit case yields, since its exit
bar is the last one). -/
def tradePathOf (side : Side) (sl tp : ℚ) (path : List Bar) : List Bar :=
  match walkExit side sl tp path with
  | some x => path.take (x.1 + 1)
  | none => path

/-- MFE/MAE of `simulate_exit`: long `(max high - entry, entry - min low)`,
short `(entry - min low, max high - entry)`; `(0, 0)` on an empty
sub-path. -/
def mfeMae (side : Side) (entry : ℚ) (tradePath : List Bar) : ℚ × ℚ :=
  match listMax (tradePath.map (·.high)), listMin (tradePath.map (·.low)) with
  | some mh, some ml =>
    match side with
    | .long => (mh - entry, entry - ml)
    | .short => (entry - ml, mh - entry)
  | _, _ => (0, 0)

/-- Realized points: `exit_px - entry` (long), `entry - exit_px` (short). -/
def pnlPoints (side : Side) (entry px : ℚ) : ℚ :=
  match side with
  | .long => px - entry
  | .short => entry - px

/-- The dictionary returned by `run_bot.simulate_exit`; `exitIdx` stands for
`exit_ts` as the exit bar's position in the path. -/
structure ExitRes where
  exitIdx : Option Nat
  exitPx : Option ℚ
  exitReason : Option ExitReason
  pnlPts : Option ℚ
  pnlUsd : Option ℚ
  mfe : ℚ
  mae : ℚ
deriving DecidableEq, Repr

/-- Embedding of `run_bot.simulate_exit(win_df, side, entry, sl, tp)`:
filter the path after the entry time, walk it for the first stop/target
touch, otherwise exit at the last bar's close with reason `"time"`,
otherwise (empty path) leave every exit field `None`; MFE/MAE are computed
over the walked sub-path in all cases. -/
def simulateExit (P : Params) (winDf : List Bar) (side : Side) (entry sl tp : ℚ) : ExitRes :=
  let path := pathOf P winDf
  let mm := mfeMae side entry (tradePathOf side sl tp path)
  match walkExit side sl tp path with
  | some (i, px, r) =>
    let pnl := pnlPoints side entry px
    ⟨some i, some px, some r, some pnl, some (pnl * P.pointVal * P.posSize), mm.1, mm.2⟩
  | none =>
    match path.getLast? with
    | some lb =>
      let pnl := pnlPoints side entry lb.close
      ⟨some (path.length - 1), some lb.close, some .time, some pnl,
        some (pnl * P.pointVal * P.posSize), mm.1, mm.2⟩
    | none => ⟨none, none, none, none, none, mm.1, mm.2⟩

/-- Decision states of `or_core`: `DaySignal.decision` strings `"long"`,
`"short"`, `"none"`, `"invalid_or"`, `"no_signal_missing_1022"`. -/
inductive Decision
  | long
  | short
  | middleNone
  | invalidOr
  | missing1022
deriving DecidableEq, Repr

/-- Embedding of `or_core.DaySignal` (the fields the claims touch). -/
structure DaySignal where
  decision : Decision
  entryPrice : Option ℚ
  sl : Option ℚ
  tp : Option ℚ
  orHigh : Option ℚ
  orLow : Option ℚ
  orRange : Option ℚ
  topCutoff : Option ℚ
  bottomCutoff : Option ℚ
deriving DecidableEq, Repr

/-- Embedding of `or_core.compute_signal_for_date` given the already-sliced
trade window and OR slice (`win`, `or_slice`): the `qc` values `or_high`,
`or_low`, `or_range` are recomputed from the slice exactly as
`load_day_window` builds them (`None` on an empty slice).  The guard
`or_slice.empty or qc["or_range"] is None or qc["or_range"] <= 0` is the
`invalidOr` arm; `_first_close_at` is the time-of-day `find?` (it ignores
any completeness flag, historical rows having none). -/
def computeSignalForDate (P : Params) (win orSlice : List Bar) : DaySignal :=
  match listMax (orSlice.map (·.high)), listMin (orSlice.map (·.low)) with
  | some orHigh, some orLow =>
    if orHigh - orLow ≤ 0 then
      { decision := .invalidOr, entryPrice := none, sl := none, tp := none,
        orHigh := some orHigh, orLow := some orLow, orRange := some (orHigh - orLow),
        topCutoff := none, bottomCutoff := none }
    else
      match win.find? (fun b => b.tod == P.entryT) with
      | none =>
        { decision := .missing1022, entryPrice := none, sl := none, tp := none,
          orHigh := some orHigh, orLow := some orLow, orRange := some (orHigh - orLow),
          topCutoff := some (orHigh - P.topPct * (orHigh - orLow)),
          bottomCutoff := some (orLow + P.botPct * (orHigh - orLow)) }
      | some b =>
        if orHigh - P.topPct * (orHigh - orLow) ≤ b.close then
          { decision := .long, entryPrice := some b.close, sl := some (b.close - P.slPts),
            tp := some (b.close + P.tpPts), orHigh := some orHigh, orLow := some orLow,
            orRange := some (orHigh - orLow),
            topCutoff := some (orHigh - P.topPct * (orHigh - orLow)),
            bottomCutoff := some (orLow + P.botPct * (orHigh - orLow)) }
        else if b.close ≤ orLow + P.botPct * (orHigh - orLow) then
          { decision := .short, entryPrice := some b.close, sl := some (b.close + P.slPts),
            tp := some (b.close - P.tpPts), orHigh := some orHigh, orLow := some orLow,
            orRange := some (orHigh - orLow),
            topCutoff := some (orHigh - P.topPct * (orHigh - orLow)),
            bottomCutoff := some (orLow + P.botPct * (orHigh - orLow)) }
        else
          { decision := .middleNone, entryPrice := some b.close, sl := none, tp := none,
            orHigh := some orHigh, orLow := some orLow, orRange := some (orHigh - orLow),
            topCutoff := some (orHigh - P.topPct * (orHigh - orLow)),
            bottomCutoff := some (orLow + P.botPct * (orHigh - orLow)) }
  | _, _ =>
    { decision := .invalidOr, entryPrice := none, sl := none, tp := none,
      orHigh := none, orLow := none, orRange := none,
      topCutoff := none, bottomCutoff := none }

/-- Embedding of `or_core.DayExecution` (the fields the claims touch). -/
structure DayExecution where
  decision : Decision
  entryPrice : Option ℚ
  sl : Option ℚ
  tp : Option ℚ
  exitPrice : Option ℚ
  exitReason : Option ExitReason
  pnlPts : Option ℚ
  pnlUsd : Option ℚ
deriving DecidableEq, Repr

/-- Embedding of `or_core.execute_day` given the sliced day (`win`,
`or_slice`).  The outer `Option` models the uncaught `IndexError` that the
source would raise looking up the hard-exit bar when `qc` reports a 12:00
bar that the (empty) path does not contain; `none` never occurs for windows
actually produced by `load_day_window` with `entryT < exitT`.  The walk is
the same loop as `simulate_exit` (`walkExit`). -/
def executeDay (P : Params) (win orSlice : List Bar) : Option DayExecution :=
  let sig := computeSignalForDate P win orSlice
  match sig.decision with
  | .invalidOr | .missing1022 =>
    some ⟨sig.decision, sig.entryPrice, none, none, none, none, none, none⟩
  | .middleNone =>
    some ⟨.middleNone, sig.entryPrice, none, none, sig.entryPrice, some .noTrade, some 0, some 0⟩
  | _ =>
    let path := win.filter (fun b => P.entryT < b.tod)
    let has1200 := path.any (fun b => b.tod == P.exitT) || win.any (fun b => b.tod == P.exitT)
    let hardExit? : Option (Option Bar) :=
      if !has1200 && !path.isEmpty then some path.getLast?
      else if has1200 then
        match path.find? (fun b => b.tod == P.exitT) with
        | some hb => some (some hb)
        | none => none
      else some none
    match sig.entryPrice, sig.sl, sig.tp with
    | some E, some SL, some TP =>
      let side : Side := if sig.decision = .long then .long else .short
      match walkExit side SL TP path with
      | some (_, px, r) =>
        let pnl := pnlPoints side E px
        some ⟨sig.decision, some E, some SL, some TP, some px, some r,
          some pnl, some (pnl * P.pointVal * P.posSize)⟩
      | none =>
        match hardExit? with
        | none => none
        | some (some hb) =>
          let pnl := pnlPoints side E hb.close
          some ⟨sig.decision, some E, some SL, some TP, some hb.close, some .time,
            some pnl, some (pnl * P.pointVal * P.posSize)⟩
        | some none =>
          some ⟨.middleNone, sig.entryPrice, none, none, sig.entryPrice, some .noTrade,
            some 0, some 0⟩
    | _, _, _ => none

/-- Skip decision of `run_bot.check_or_completeness`: `ok` when no rows are
missing, `warn` for a shortfall within tolerance (log but proceed), `skip`
beyond it. -/
inductive OrCheck
  | ok
  | warn
  | skip
deriving DecidableEq, Repr

/-- Embedding of `run_bot.OR_INCOMPLETE_TOLERANCE`, the live session path's tolerance. -/
def OR_INCOMPLETE_TOLERANCE : Nat := 2

/-- Embedding of `run_bot.check_or_completeness`'s skip logic:
`missing_rows = expected - actual`; positive shortfall beyond the tolerance
skips the day, within it only warns. -/
def checkOrCompleteness (actualRows expectedRows tolerance : Nat) : OrCheck :=
  if actualRows < expectedRows then
    if tolerance < expectedRows - actualRows then .skip else .warn
  else .ok

/-- The replay path's OR parity gate (`run_bot.py` replay main):
`len(slice_or) != or_expected_rows` skips the day. -/
def replayOrSkip (actualRows expectedRows : Nat) : Bool :=
  actualRows != expectedRows

/-- Per-process day bookkeeping of `run_bot.main_loop` touched by the
signal-outcome branch: `handled_days`, `summary["skipped"]`,
`last_trade_date` (dates as abstract naturals). -/
structure LoopState where
  handledDays : List Nat
  skippedCount : Nat
  lastTradeDate : Option Nat
deriving DecidableEq, Repr

/-- The `sig is None` branch of `main_loop` (after `compute_signal`):
on `entry_incomplete` the loop sleeps and retries with no state change;
on any other no-signal reason the day is counted skipped, marked handled
and `last_trade_date` is set, making the day terminal. -/
def handleNoSignal (reason : Outcome) (d : Nat) (s : LoopState) : LoopState :=
  match reason with
  | .entryIncomplete => s
  | _ =>
    { handledDays := s.handledDays ++ [d], skippedCount := s.skippedCount + 1,
      lastTradeDate := some d }

/-- State driving `main_loop`'s end-of-day flush (the `finally` block):
`last_trade_date`, `summary_flushed_for`, `session_started_for`, and
`flushedDates` recording one entry per emitted summary record / CSV row. -/
structure FlushState where
  lastTradeDate : Option Nat
  summaryFlushedFor : Option Nat
  sessionStartedFor : Option Nat
  flushedDates : List Nat
deriving DecidableEq, Repr

/-- One evaluation of the flush condition in `main_loop`'s `finally` block:
`after_exit and last_trade_date and summary_flushed_for != last_trade_date
and session_started_for == last_trade_date`.  A firing flush appends the
day's record, sets the flush marker, and clears `session_started_for`
(mirroring `summary_flushed_for = last_trade_date` and
`session_started_for = None` at the end of the block). -/
def flushStep (afterExit : Bool) (s : FlushState) : FlushState :=
  match s.lastTradeDate with
  | none => s
  | some d =>
    if afterExit ∧ s.summaryFlushedFor ≠ some d ∧ s.sessionStartedFor = some d then
      { lastTradeDate := some d, summaryFlushedFor := some d,
        sessionStartedFor := none, flushedDates := s.flushedDates ++ [d] }
    else s

/-- Repeated evaluations of the flush condition across loop iterations. -/
def runFlush (ticks : List Bool) (s : FlushState) : FlushState :=
  ticks.foldl (fun st b => flushStep b st) s

/-! Helper lemmas about the exit walk. -/

theorem barExit_eq_none_iff (side : Side) (sl tp : ℚ) (b : Bar) :
    barExit side sl tp b = none ↔
      touchesTarget side tp b = false ∧ touchesStop side sl b = false := by
  cases h1 : touchesTarget side tp b <;> cases h2 : touchesStop side sl b <;>
    simp [barExit, h1, h2]

theorem barExit_both (side : Side) (sl tp : ℚ) (b : Bar)
    (h1 : touchesTarget side tp b = true) (h2 : touchesStop side sl b = true) :
    barExit side sl tp b = some (sl, .sl) := by
  simp [barExit, h1, h2]

theorem walkExit_eq_none (side : Side) (sl tp : ℚ) (path : List Bar)
    (h : ∀ a ∈ path, touchesTarget side tp a = false ∧ touchesStop side sl a = false) :
    walkExit side sl tp path = none := by
  induction path with
  | nil => rfl
  | cons a rest ih =>
    have ha : barExit side sl tp a = none :=
      (barExit_eq_none_iff side sl tp a).mpr (h a (List.mem_cons_self a rest))
    have hr := ih (fun x hx => h x (List.mem_cons_of_mem a hx))
    simp [walkExit, ha, hr]

theorem walkExit_first_touch (side : Side) (sl tp : ℚ) (pre : List Bar) (b : Bar)
    (post : List Bar) (v : ℚ × ExitReason)
    (hpre : ∀ a ∈ pre, touchesTarget side tp a = false ∧ touchesStop side sl a = false)
    (hb : barExit side sl tp b = some v) :
    walkExit side sl tp (pre ++ b :: post) = some (pre.length, v.1, v.2) := by
  induction pre with
  | nil => simp [walkExit, hb]
  | cons a pre ih =>
    have ha : barExit side sl tp a = none :=
      (barExit_eq_none_iff side sl tp a).mpr (hpre a (List.mem_cons_self a pre))
    have hr := ih (fun x hx => hpre x (List.mem_cons_of_mem a hx))
    simp [walkExit, ha, hr]

/-- Claim C1: for every opening range with positive range and a complete
entry bar at the entry time in the trade window, `compute_signal` takes the
entry bar's close and compares it against `top_cutoff = or_high - top_pct *
or_range` and `bottom_cutoff = or_low + bottom_pct * or_range`: at or above
the top cutoff it goes long with stop `entry - sl_points` and target
`entry + tp_points` (the long check is evaluated first, so it wins when both
zones hold); otherwise at or below the bottom cutoff it goes short with the
mirrored levels; otherwise no trade. -/
theorem claim_C1_signal_decision (P : Params) (winDf orDf : List Bar) (oh ol : ℚ) (b : Bar)
    (hmax : listMax (orDf.map (·.high)) = some oh)
    (hmin : listMin (orDf.map (·.low)) = some ol)
    (_hpos : 0 < oh - ol)
    (hfind : winDf.find? (fun x => x.tod == P.entryT) = some b)
    (hcomp : b.complete = true) :
    (oh - P.topPct * (oh - ol) ≤ b.close →
      computeSignal P winDf orDf =
        .trade .long b.close (b.close - P.slPts) (b.close + P.tpPts)) ∧
    (¬ oh - P.topPct * (oh - ol) ≤ b.close → b.close ≤ ol + P.botPct * (oh - ol) →
      computeSignal P winDf orDf =
        .trade .short b.close (b.close + P.slPts) (b.close - P.tpPts)) ∧
    (¬ oh - P.topPct * (oh - ol) ≤ b.close → ¬ b.close ≤ ol + P.botPct * (oh - ol) →
      computeSignal P winDf orDf = .noTrade) := by
  refine ⟨fun h1 => ?_, fun h1 h2 => ?_, fun h1 h2 => ?_⟩
  · simp [computeSignal, hfind, hmax, hmin, hcomp, h1]
  · simp [computeSignal, hfind, hmax, hmin, hcomp, h1, h2]
  · simp [computeSignal, hfind, hmax, hmin, hcomp, h1, h2]

/-- Witness for C1 at the spec's own numbers: OR 100–200, entry close 170,
long with stop 145 and target 245. -/
theorem claim_C1_signal_decision_witness :
    computeSignal defaultParams
      [Bar.mk 622 168 180 160 170 true]
      [Bar.mk 570 150 200 100 150 true] =
      Outcome.trade Side.long 170 145 245 := by
  have h := (claim_C1_signal_decision defaultParams
      [Bar.mk 622 168 180 160 170 true] [Bar.mk 570 150 200 100 150 true]
      200 100 (Bar.mk 622 168 180 160 170 true) rfl rfl (by norm_num) rfl rfl).1
      (by norm_num [defaultParams])
  norm_num [defaultParams] at h ⊢
  exact h

/-- Claim C2: when the first touching bar of the path touches both the stop
and the target within the same bar, the exit simulator exits on that bar
with reason `sl` at the stop price — never the target price or the bar's
close (conservative tie-break, shared by `simulate_exit` and
`execute_day`'s walk). -/
theorem claim_C2_tie_break (P : Params) (winDf : List Bar) (side : Side)
    (entry sl tp : ℚ) (pre : List Bar) (b : Bar) (post : List Bar)
    (hpath : pathOf P winDf = pre ++ b :: post)
    (hpre : ∀ a ∈ pre, touchesTarget side tp a = false ∧ touchesStop side sl a = false)
    (hTp : touchesTarget side tp b = true)
    (hSl : touchesStop side sl b = true) :
    (simulateExit P winDf side entry sl tp).exitReason = some ExitReason.sl ∧
    (simulateExit P winDf side entry sl tp).exitPx = some sl := by
  have hw : walkExit side sl tp (pathOf P winDf) = some (pre.length, sl, .sl) := by
    rw [hpath]
    exact walkExit_first_touch side sl tp pre b post (sl, .sl) hpre
      (barExit_both side sl tp b hTp hSl)
  constructor <;> simp [simulateExit, hw]

/-- Witness for C2 at the spec's example: long, entry 100, stop 90,
target 130, one bar with high 135 and low 85 touching both → exit `sl`
at 90. -/
theorem claim_C2_tie_break_witness :
    (simulateExit defaultParams [Bar.mk 623 100 135 85 100 true] Side.long 100 90 130).exitReason =
        some ExitReason.sl ∧
    (simulateExit defaultParams [Bar.mk 623 100 135 85 100 true] Side.long 100 90 130).exitPx =
        some (90 : ℚ) :=
  claim_C2_tie_break defaultParams [Bar.mk 623 100 135 85 100 true] Side.long 100 90 130
    [] (Bar.mk 623 100 135 85 100 true) [] rfl (by simp) (by decide) (by decide)

/-- Claim C4: when no bar of the path touches the stop or the target (the
per-side touch tests are false on every bar), the simulation terminates at
the last available bar with reason `time` and exit price that bar's
close. -/
theorem claim_C4_time_exit (P : Params) (winDf : List Bar) (side : Side)
    (entry sl tp : ℚ) (lb : Bar)
    (hnt : ∀ a ∈ pathOf P winDf,
      touchesTarget side tp a = false ∧ touchesStop side sl a = false)
    (hlast : (pathOf P winDf).getLast? = some lb) :
    (simulateExit P winDf side entry sl tp).exitReason = some ExitReason.time ∧
    (simulateExit P winDf side entry sl tp).exitPx = some lb.close := by
  have hw : walkExit side sl tp (pathOf P winDf) = none :=
    walkExit_eq_none side sl tp (pathOf P winDf) hnt
  constructor <;> simp [simulateExit, hw, hlast]

/-- Witness for C4: a two-bar path never touching stop 90 or target 130 of
a long from 100 exits at the second bar's close 102 with reason `time`. -/
theorem claim_C4_time_exit_witness :
    (simulateExit defaultParams
        [Bar.mk 623 100 105 95 101 true, Bar.mk 624 101 106 96 102 true]
        Side.long 100 90 130).exitReason = some ExitReason.time ∧
    (simulateExit defaultParams
        [Bar.mk 623 100 105 95 101 true, Bar.mk 624 101 106 96 102 true]
        Side.long 100 90 130).exitPx = some (102 : ℚ) :=
  claim_C4_time_exit defaultParams
    [Bar.mk 623 100 105 95 101 true, Bar.mk 624 101 106 96 102 true]
    Side.long 100 90 130 (Bar.mk 624 101 106 96 102 true) (by decide) rfl

theorem simulateExit_mfe (P : Params) (winDf : List Bar) (side : Side) (entry sl tp : ℚ) :
    (simulateExit P winDf side entry sl tp).mfe =
      (mfeMae side entry (tradePathOf side sl tp (pathOf P winDf))).1 := by
  rcases h : walkExit side sl tp (pathOf P winDf) with _ | ⟨i, px, r⟩
  · rcases hl : (pathOf P winDf).getLast? with _ | lb <;> simp [simulateExit, h, hl]
  · simp [simulateExit, h]

theorem simulateExit_mae (P : Params) (winDf : List Bar) (side : Side) (entry sl tp : ℚ) :
    (simulateExit P winDf side entry sl tp).mae =
      (mfeMae side entry (tradePathOf side sl tp (pathOf P winDf))).2 := by
  rcases h : walkExit side sl tp (pathOf P winDf) with _ | ⟨i, px, r⟩
  · rcases hl : (pathOf P winDf).getLast? with _ | lb <;> simp [simulateExit, h, hl]
  · simp [simulateExit, h]

/-- Counterexample to claim C3 as stated: a long from entry 100 over the
non-empty one-bar path (high 95, low 90, close 92) that touches neither
stop 50 nor target 200 yields `mfe = 95 - 100 = -5 < 0` — the excursions
are not clamped, so `mfe_points` is negative whenever the whole walked
sub-path sits below a long entry. -/
theorem claim_C3_counterexample :
    pathOf defaultParams [Bar.mk 623 94 95 90 92 true] ≠ [] ∧
    (simulateExit defaultParams [Bar.mk 623 94 95 90 92 true] Side.long 100 50 200).mfe < 0 := by
  constructor
  · decide
  · norm_num [simulateExit, pathOf, tradePathOf, walkExit, barExit, touchesTarget,
      touchesStop, mfeMae, listMax, listMin, defaultParams]

/-- Claim C3 (amended): over a non-empty walked sub-path, `mfe_points` and
`mae_points` are both non-negative exactly when the entry price lies inside
the sub-path's `[min low, max high]` envelope; the source applies no
clamping, so when every bar sits strictly on one side of the entry price one
of the two excursions is negative. -/
theorem claim_C3_mfe_mae (P : Params) (winDf : List Bar) (side : Side)
    (entry sl tp : ℚ) (mh ml : ℚ)
    (hmh : listMax ((tradePathOf side sl tp (pathOf P winDf)).map (·.high)) = some mh)
    (hml : listMin ((tradePathOf side sl tp (pathOf P winDf)).map (·.low)) = some ml) :
    (0 ≤ (simulateExit P winDf side entry sl tp).mfe ∧
      0 ≤ (simulateExit P winDf side entry sl tp).mae) ↔
    (ml ≤ entry ∧ entry ≤ mh) := by
  rw [simulateExit_mfe, simulateExit_mae]
  cases side <;> simp [mfeMae, hmh, hml, sub_nonneg, and_comm]

/-- Witness for the amended C3: entry 100 inside the envelope [95, 105] of
an untouched one-bar path gives non-negative MFE and MAE. -/
theorem claim_C3_mfe_mae_witness :
    0 ≤ (simulateExit defaultParams [Bar.mk 623 100 105 95 101 true]
          Side.short 100 130 70).mfe ∧
    0 ≤ (simulateExit defaultParams [Bar.mk 623 100 105 95 101 true]
          Side.short 100 130 70).mae :=
  (claim_C3_mfe_mae defaultParams [Bar.mk 623 100 105 95 101 true]
    Side.short 100 130 70 105 95 rfl rfl).mpr (by norm_num)

theorem csfd_shape (P : Params) (win orSlice : List Bar) :
    (computeSignalForDate P win orSlice).decision = Decision.invalidOr ∨
    (computeSignalForDate P win orSlice).decision = Decision.missing1022 ∨
    (computeSignalForDate P win orSlice).decision = Decision.middleNone ∨
    ((computeSignalForDate P win orSlice).entryPrice.isSome ∧
      (computeSignalForDate P win orSlice).sl.isSome ∧
      (computeSignalForDate P win orSlice).tp.isSome) := by
  unfold computeSignalForDate
  repeat' split
  all_goals simp

/-- Claim C5: a long or short signal whose bar path after the entry bar is
empty is reclassified by `execute_day` to the flat decision with exit reason
`no_trade` and zero P&L in points and currency — a distinct terminal state,
not an exception (`executeDay` returns `some`) and not a missing result. -/
theorem claim_C5_empty_path (P : Params) (win orSlice : List Bar)
    (hlt : P.entryT < P.exitT)
    (hdec : (computeSignalForDate P win orSlice).decision = Decision.long ∨
            (computeSignalForDate P win orSlice).decision = Decision.short)
    (hpath : win.filter (fun b => P.entryT < b.tod) = []) :
    ∃ ex, executeDay P win orSlice = some ex ∧
      ex.decision = Decision.middleNone ∧
      ex.exitReason = some ExitReason.noTrade ∧
      ex.pnlPts = some (0 : ℚ) ∧ ex.pnlUsd = some (0 : ℚ) := by
  rcases csfd_shape P win orSlice with h | h | h | hf
  · rcases hdec with hd | hd <;> simp [hd] at h
  · rcases hdec with hd | hd <;> simp [hd] at h
  · rcases hdec with hd | hd <;> simp [hd] at h
  obtain ⟨h1, h2, h3⟩ := hf
  obtain ⟨E, hE⟩ := Option.isSome_iff_exists.mp h1
  obtain ⟨SL, hSL⟩ := Option.isSome_iff_exists.mp h2
  obtain ⟨TP, hTP⟩ := Option.isSome_iff_exists.mp h3
  have hany : win.any (fun b => b.tod == P.exitT) = false := by
    rw [List.any_eq_false]
    intro b hb
    simp only [beq_iff_eq]
    intro hbe
    have hmem : b ∈ win.filter (fun x => P.entryT < x.tod) :=
      List.mem_filter.mpr ⟨hb, by simpa [hbe] using hlt⟩
    rw [hpath] at hmem
    simp at hmem
  rcases hdec with hd | hd <;>
    (simp only [executeDay]
     rw [hd, hpath]
     simp [hany, hE, hSL, hTP, walkExit])

/-- Witness for C5: a lone entry bar closing at 109 above the top cutoff
106.5 of OR [100, 110] signals long, the path after it is empty, and the day
executes as flat `no_trade` with zero P&L. -/
theorem claim_C5_empty_path_witness :
    ∃ ex, executeDay defaultParams [Bar.mk 622 100 110 90 109 true]
        [Bar.mk 570 105 110 100 105 true] = some ex ∧
      ex.decision = Decision.middleNone ∧
      ex.exitReason = some ExitReason.noTrade ∧
      ex.pnlPts = some (0 : ℚ) ∧ ex.pnlUsd = some (0 : ℚ) :=
  claim_C5_empty_path defaultParams [Bar.mk 622 100 110 90 109 true]
    [Bar.mk 570 105 110 100 105 true] (by decide)
    (Or.inl (by norm_num [computeSignalForDate, listMax, listMin, defaultParams])) (by decide)

/-- Claim C6: an empty OR slice or a non-positive range (in particular
`high == low`) makes `compute_signal_for_date` return decision `invalid_or`
with no stop, target or cutoff levels, for every trade window — hence
independently of the entry bar's price. -/
theorem claim_C6_invalid_or (P : Params) (win orSlice : List Bar)
    (h : orSlice = [] ∨ ∃ oh ol, listMax (orSlice.map (·.high)) = some oh ∧
          listMin (orSlice.map (·.low)) = some ol ∧ oh - ol ≤ 0) :
    (computeSignalForDate P win orSlice).decision = Decision.invalidOr ∧
    (computeSignalForDate P win orSlice).sl = none ∧
    (computeSignalForDate P win orSlice).tp = none ∧
    (computeSignalForDate P win orSlice).topCutoff = none ∧
    (computeSignalForDate P win orSlice).bottomCutoff = none := by
  rcases h with h | ⟨oh, ol, hmax, hmin, hle⟩
  · subst h
    simp [computeSignalForDate, listMax, listMin]
  · simp [computeSignalForDate, hmax, hmin, hle]

/-- Witness for C6: a one-bar OR slice with `high == low == 100` is
`invalid_or` even though the entry bar's close 170 would clear any cutoff. -/
theorem claim_C6_invalid_or_witness :
    (computeSignalForDate defaultParams [Bar.mk 622 170 171 169 170 true]
        [Bar.mk 570 100 100 100 100 true]).decision = Decision.invalidOr ∧
    (computeSignalForDate defaultParams [Bar.mk 622 170 171 169 170 true]
        [Bar.mk 570 100 100 100 100 true]).sl = none ∧
    (computeSignalForDate defaultParams [Bar.mk 622 170 171 169 170 true]
        [Bar.mk 570 100 100 100 100 true]).tp = none ∧
    (computeSignalForDate defaultParams [Bar.mk 622 170 171 169 170 true]
        [Bar.mk 570 100 100 100 100 true]).topCutoff = none ∧
    (computeSignalForDate defaultParams [Bar.mk 622 170 171 169 170 true]
        [Bar.mk 570 100 100 100 100 true]).bottomCutoff = none :=
  claim_C6_invalid_or defaultParams [Bar.mk 622 170 171 169 170 true]
    [Bar.mk 570 100 100 100 100 true]
    (Or.inr ⟨100, 100, rfl, rfl, by norm_num⟩)

/-- Claim C7: `compute_signal` returns `missing_entry` when no bar of the
trade window sits at the entry time, and `entry_incomplete` when the located
entry bar is not complete; the session loop treats `entry_incomplete` as a
retry — it leaves the day state untouched instead of marking the day
handled or skipped. -/
theorem claim_C7_entry_states (P : Params) (winDf orDf : List Bar) (d : Nat) (s : LoopState) :
    ((∀ b ∈ winDf, b.tod ≠ P.entryT) → computeSignal P winDf orDf = Outcome.missingEntry) ∧
    (∀ b, winDf.find? (fun x => x.tod == P.entryT) = some b → b.complete = false →
      computeSignal P winDf orDf = Outcome.entryIncomplete) ∧
    handleNoSignal Outcome.entryIncomplete d s = s := by
  refine ⟨fun h => ?_, fun b hb hc => ?_, rfl⟩
  · have hf : winDf.find? (fun x => x.tod == P.entryT) = none := by
      rw [List.find?_eq_none]
      intro x hx
      simpa using h x hx
    simp [computeSignal, hf]
  · simp [computeSignal, hb, hc]

/-- Witness for C7: a window without a 10:22 bar is `missing_entry`; one
whose 10:22 bar has `complete = false` is `entry_incomplete`; and the loop
state survives an `entry_incomplete` outcome unchanged. -/
theorem claim_C7_entry_states_witness :
    computeSignal defaultParams [Bar.mk 600 1 2 0 1 true] [] = Outcome.missingEntry ∧
    computeSignal defaultParams [Bar.mk 622 1 2 0 1 false] [] = Outcome.entryIncomplete ∧
    handleNoSignal Outcome.entryIncomplete 5 (LoopState.mk [] 0 none) = LoopState.mk [] 0 none :=
  ⟨(claim_C7_entry_states defaultParams [Bar.mk 600 1 2 0 1 true] [] 5
      (LoopState.mk [] 0 none)).1 (by decide),
   (claim_C7_entry_states defaultParams [Bar.mk 622 1 2 0 1 false] [] 5
      (LoopState.mk [] 0 none)).2.1 (Bar.mk 622 1 2 0 1 false) (by decide) rfl,
   (claim_C7_entry_states defaultParams [] [] 5 (LoopState.mk [] 0 none)).2.2⟩

/-- Counterexample to claim C8 as stated: on the backtest decision path
(`compute_signal_for_date`) the tolerance is not zero — no bar-count check
exists at all.  With the expected 31 OR bars (09:30–10:00 inclusive) but an
OR slice holding a single bar (shortfall 30, far beyond a zero tolerance),
the day is not flagged incomplete: the function still produces a long
signal from the 10:22 close 108 against OR [100, 110]. -/
theorem claim_C8_counterexample :
    (31 : Nat) - List.length [Bar.mk 570 104 110 100 104 true] = 30 ∧
    (computeSignalForDate defaultParams [Bar.mk 622 107 109 106 108 true]
        [Bar.mk 570 104 110 100 104 true]).decision = Decision.long := by
  constructor
  · rfl
  · norm_num [computeSignalForDate, listMax, listMin, defaultParams]

/-- Claim C8 (amended): the live session path (`check_or_completeness` with
`OR_INCOMPLETE_TOLERANCE = 2`) skips exactly when the OR slice is short of
the expected bar count by more than the tolerance; the replay parity gate
skips exactly on any count mismatch (zero tolerance); but the backtest
decision function `compute_signal_for_date` applies no bar-count
completeness check — any OR slice with a positive range escapes the
`invalid_or` suppression regardless of how many bars are missing. -/
theorem claim_C8_completeness (actual expected : Nat) (P : Params)
    (win orSlice : List Bar) (oh ol : ℚ) :
    OR_INCOMPLETE_TOLERANCE = 2 ∧
    (checkOrCompleteness actual expected OR_INCOMPLETE_TOLERANCE = OrCheck.skip ↔
      (expected : Int) - actual > 2) ∧
    (replayOrSkip actual expected = true ↔ actual ≠ expected) ∧
    (listMax (orSlice.map (·.high)) = some oh → listMin (orSlice.map (·.low)) = some ol →
      0 < oh - ol →
      (computeSignalForDate P win orSlice).decision ≠ Decision.invalidOr) := by
  refine ⟨rfl, ?_, ?_, ?_⟩
  · unfold checkOrCompleteness OR_INCOMPLETE_TOLERANCE
    split_ifs with h1 h2 <;> simp <;> omega
  · simp [replayOrSkip]
  · intro hmax hmin hpos
    simp only [computeSignalForDate, hmax, hmin]
    rw [if_neg (show ¬ oh - ol ≤ 0 by linarith)]
    split
    · simp
    · split_ifs <;> simp

/-- Witness for C8: shortfall 5 > 2 skips on the live path; a one-bar OR
slice with positive range is not `invalid_or` on the decision path. -/
theorem claim_C8_completeness_witness :
    checkOrCompleteness 26 31 OR_INCOMPLETE_TOLERANCE = OrCheck.skip ∧
    (computeSignalForDate defaultParams [Bar.mk 622 150 151 149 150 true]
        [Bar.mk 570 120 130 110 120 true]).decision ≠ Decision.invalidOr :=
  ⟨(claim_C8_completeness 26 31 defaultParams [] [] 0 0).2.1.mpr (by norm_num),
   (claim_C8_completeness 26 31 defaultParams [Bar.mk 622 150 151 149 150 true]
      [Bar.mk 570 120 130 110 120 true] 130 110).2.2.2 rfl rfl (by norm_num)⟩

theorem flushStep_of_flushed (b : Bool) (s : FlushState)
    (h : s.summaryFlushedFor = s.lastTradeDate) : flushStep b s = s := by
  rcases hl : s.lastTradeDate with _ | d
  · simp [flushStep, hl]
  · rw [hl] at h
    simp [flushStep, hl, h]

theorem runFlush_of_flushed (ticks : List Bool) (s : FlushState)
    (h : s.summaryFlushedFor = s.lastTradeDate) : runFlush ticks s = s := by
  induction ticks with
  | nil => rfl
  | cons t ts ih =>
    show runFlush ts (flushStep t s) = s
    rw [flushStep_of_flushed t s h, ih]

theorem flushStep_cases (b : Bool) (s : FlushState) :
    flushStep b s = s ∨
    ((flushStep b s).summaryFlushedFor = (flushStep b s).lastTradeDate ∧
      (flushStep b s).flushedDates.length = s.flushedDates.length + 1) := by
  rcases hl : s.lastTradeDate with _ | d
  · exact Or.inl (by simp [flushStep, hl])
  · by_cases hc : b = true ∧ s.summaryFlushedFor ≠ some d ∧ s.sessionStartedFor = some d
    · refine Or.inr ?_
      simp only [flushStep, hl]
      rw [if_pos hc]
      simp
    · refine Or.inl ?_
      simp only [flushStep, hl]
      rw [if_neg hc]

theorem runFlush_length (ticks : List Bool) (s : FlushState) :
    (runFlush ticks s).flushedDates.length ≤ s.flushedDates.length + 1 := by
  induction ticks generalizing s with
  | nil => exact Nat.le_succ _
  | cons t ts ih =>
    show (runFlush ts (flushStep t s)).flushedDates.length ≤ s.flushedDates.length + 1
    rcases flushStep_cases t s with h | ⟨h1, h2⟩
    · rw [h]
      exact ih s
    · rw [runFlush_of_flushed ts _ h1, h2]

/-- Claim C9: the end-of-day flush runs at most once per day — it fires only
on an evaluation with the hard-exit time passed (`afterExit`), a set trade
date whose session actually started, and no flush marker yet; a firing
evaluation emits exactly one record and sets the marker; once the marker
equals the trade date every later evaluation in the same process is a
no-op; and across any sequence of evaluations at most one record is ever
added. -/
theorem claim_C9_flush_exactly_once (s : FlushState) (ticks : List Bool) (b : Bool) (d : Nat) :
    (s.summaryFlushedFor = s.lastTradeDate → runFlush ticks s = s) ∧
    (flushStep b s ≠ s → b = true ∧ s.lastTradeDate ≠ none ∧
      s.sessionStartedFor = s.lastTradeDate ∧ s.summaryFlushedFor ≠ s.lastTradeDate) ∧
    (s.lastTradeDate = some d → s.summaryFlushedFor ≠ some d →
      s.sessionStartedFor = some d →
      (flushStep true s).flushedDates = s.flushedDates ++ [d] ∧
      (flushStep true s).summaryFlushedFor = some d) ∧
    (runFlush ticks s).flushedDates.length ≤ s.flushedDates.length + 1 := by
  refine ⟨runFlush_of_flushed ticks s, fun hne => ?_, fun hl hm hs => ?_, runFlush_length ticks s⟩
  · rcases hl : s.lastTradeDate with _ | e
    · exact absurd (by simp [flushStep, hl]) hne
    · by_cases hc : b = true ∧ s.summaryFlushedFor ≠ some e ∧ s.sessionStartedFor = some e
      · exact ⟨hc.1, by simp [hl], hc.2.2, hc.2.1⟩
      · refine absurd ?_ hne
        simp only [flushStep, hl]
        rw [if_neg hc]
  · constructor <;> simp [flushStep, hl, hm, hs]

/-- Witness for C9: from a state already flushed for day 1, two more
evaluations change nothing; and a fresh started day 2 flushes exactly one
record when evaluated after the exit time. -/
theorem claim_C9_flush_exactly_once_witness :
    runFlush [true, true] (FlushState.mk (some 1) (some 1) (some 1) [1]) =
      FlushState.mk (some 1) (some 1) (some 1) [1] ∧
    (flushStep true (FlushState.mk (some 2) none (some 2) [])).flushedDates = [] ++ [2] ∧
    (runFlush [true, true, false] (FlushState.mk (some 2) none (some 2) [])).flushedDates.length ≤
      0 + 1 :=
  ⟨(claim_C9_flush_exactly_once (FlushState.mk (some 1) (some 1) (some 1) [1])
      [true, true] true 1).1 rfl,
   ((claim_C9_flush_exactly_once (FlushState.mk (some 2) none (some 2) [])
      [] true 2).2.2.1 rfl (by simp) rfl).1,
   (claim_C9_flush_exactly_once (FlushState.mk (some 2) none (some 2) [])
      [true, true, false] true 2).2.2.2⟩

/-- Claim C10: when a zero-range opening range (`max high = min low = v`)
reaches `compute_signal` with a complete entry bar, both cutoffs collapse to
`v` and the function always returns a long or short trade signal — long
exactly when the entry close is at or above `v`, short otherwise — never
`none` and never any invalid-range state: the function performs no
range-validity check, so the upstream zero-range filter is load-bearing. -/
theorem claim_C10_zero_range (P : Params) (winDf orDf : List Bar) (v : ℚ) (b : Bar)
    (hmax : listMax (orDf.map (·.high)) = some v)
    (hmin : listMin (orDf.map (·.low)) = some v)
    (hfind : winDf.find? (fun x => x.tod == P.entryT) = some b)
    (hcomp : b.complete = true) :
    (v ≤ b.close → computeSignal P winDf orDf =
      Outcome.trade Side.long b.close (b.close - P.slPts) (b.close + P.tpPts)) ∧
    (b.close < v → computeSignal P winDf orDf =
      Outcome.trade Side.short b.close (b.close + P.slPts) (b.close - P.tpPts)) := by
  constructor <;> intro h
  · simp [computeSignal, hfind, hmax, hmin, hcomp, h]
  · simp [computeSignal, hfind, hmax, hmin, hcomp, h.le, h.not_le]

/-- Witness for C10: a flat OR pinned at 120 with entry close 119 still
produces a signal — short, never `none`. -/
theorem claim_C10_zero_range_witness :
    computeSignal defaultParams [Bar.mk 622 119 121 118 119 true]
      [Bar.mk 570 120 120 120 120 true] =
      Outcome.trade Side.short 119 (119 + defaultParams.slPts) (119 - defaultParams.tpPts) :=
  (claim_C10_zero_range defaultParams [Bar.mk 622 119 121 118 119 true]
    [Bar.mk 570 120 120 120 120 true] 120 (Bar.mk 622 119 121 118 119 true)
    rfl rfl rfl rfl).2 (by norm_num)
